/-
  Verification of the data-loading pipeline of `utils/datasets.py`
  (ScaledYOLOv4, Paddle port).

  The Python source is shallowly embedded: every definition below is a direct
  translation of the corresponding Python function, with
  * machine floats replaced by exact rationals (`ℚ`),
  * Python ints replaced by `ℤ` / `ℕ`,
  * the file system modelled as a partial map from path to byte size,
  * calls into external libraries (cv2 warps, PIL decoding, the RNG and the
    trigonometric functions applied to sampled angles) modelled as explicit
    inputs, so that every embedded function is deterministic and executable.
-/
import Mathlib

/-! ## File system, `get_hash`, and the cache decision (`LoadImagesAndLabels.__init__`) -/

/-- A file system: maps a path to `some size` when a regular file of that byte
size exists at the path, `none` otherwise (`os.path.isfile` / `os.path.getsize`). -/
def FileSys : Type := String → Option ℕ

/-- `get_hash(files) = sum(os.path.getsize(f) for f in files if os.path.isfile(f))`
(datasets.py line 24-25). -/
def get_hash (fs : FileSys) (files : List String) : ℕ :=
  ((files.filter (fun f => (fs f).isSome)).map (fun f => (fs f).getD 0)).sum

/-- Label rows as parsed from a label file: a list of rows, each row a list of
rationals (one numpy `float32` array of shape `(n, cols)`). -/
abbrev LabelArr := List (List ℚ)

/-- One per-image cache payload: the label array and the EXIF-corrected image
shape `(w, h)` as produced by `cache_labels`. -/
abbrev CacheEntry := LabelArr × ℤ × ℤ

/-- The persisted cache: the per-image entries (in image-file order; `none`
models the `x[img] = None` written on a per-file scan failure) together with
the reserved `hash` value. -/
structure CacheData where
  entries : List (Option CacheEntry)
  hash : ℕ

/-- The per-file loop body of `cache_labels` (datasets.py lines 436-453): each
file either scans successfully to an entry or raises, in which case a `None`
entry is recorded with a warning and the loop continues with the next file.
The outcome of each file's `try` block is an explicit input. -/
def cacheEntriesOfScan (results : List (Except String CacheEntry)) :
    List (Option CacheEntry) :=
  results.map (fun r => match r with
    | .ok e => some e
    | .error _ => none)

/-- `cache_labels` (datasets.py lines 429-456): record the per-file scan
outcomes, then store under the reserved key `hash` the value
`get_hash(self.label_files + self.img_files)`. -/
def cache_labels (fs : FileSys) (labelFiles imgFiles : List String)
    (results : List (Except String CacheEntry)) : CacheData :=
  ⟨cacheEntriesOfScan results, get_hash fs (labelFiles ++ imgFiles)⟩

/-- The cache decision in `LoadImagesAndLabels.__init__` (lines 325-331):
if a cache file exists it is loaded, and kept exactly when its stored `hash`
equals the recomputed `get_hash` over the label and image files; otherwise
`cache_labels` is (re)run.  `stored = none` models a missing cache file, and
`rescan` is the cache that a `cache_labels` run would produce.  The returned
flag records whether `cache_labels` ran. -/
def loadOrRescan (stored : Option CacheData) (fs : FileSys)
    (labelFiles imgFiles : List String) (rescan : CacheData) : CacheData × Bool :=
  match stored with
  | some c =>
      if c.hash = get_hash fs (labelFiles ++ imgFiles) then (c, false)
      else (rescan, true)
  | none => (rescan, true)

/-- `labels, shapes = zip(*[cache[x] for x in self.img_files])` (line 332):
`zip(*...)` iterates every element, so a `None` entry raises `TypeError`
(modelled as `none`); otherwise the entries are unzipped into the label list
and the shape list. -/
def unpackEntries (es : List (Option CacheEntry)) :
    Option (List LabelArr × List (ℤ × ℤ)) :=
  match es.mapM id with
  | some l => some l.unzip
  | none => none

/-! ## Label validation scan (`LoadImagesAndLabels.__init__`, lines 357-411) -/

/-- `l[:, 0] = 0` (single-class collapsing, line 370) on one row. -/
def setCls0 (r : List ℚ) : List ℚ :=
  match r with
  | [] => []
  | _ :: t => 0 :: t

/-- The per-file validation loop of `__init__` (lines 359-411): for every
non-empty label array it asserts exactly 5 columns, all values nonnegative,
and all coordinate columns (columns 1..4) at most 1 — any violation raises,
aborting construction (`Except.error`).  Arrays with duplicate rows bump the
duplicate tally `nd` (`np.unique(l, axis=0).shape[0] < l.shape[0]`) but the
rows are kept.  Returns the (possibly single-class-collapsed) label arrays
together with the counters `(nf, ne, nd)`. -/
def scanLabels : List LabelArr → Bool → Except String (List LabelArr × ℕ × ℕ × ℕ)
  | [], _ => .ok ([], 0, 0, 0)
  | l :: rest, sc =>
    if l.length = 0 then
      match scanLabels rest sc with
      | .error e => .error e
      | .ok (ls, nf, ne, nd) => .ok (l :: ls, nf, ne + 1, nd)
    else if h5 : ∀ r ∈ l, r.length = 5 then
      if hnn : ∀ r ∈ l, ∀ v ∈ r, 0 ≤ v then
        if hc : ∀ r ∈ l, ∀ v ∈ r.tail, v ≤ 1 then
          match scanLabels rest sc with
          | .error e => .error e
          | .ok (ls, nf, ne, nd) =>
              .ok ((if sc then l.map setCls0 else l) :: ls, nf + 1, ne,
                nd + (if l.dedup.length < l.length then 1 else 0))
        else .error "non-normalized or out of bounds coordinate labels"
      else .error "negative labels"
    else .error "> 5 label columns"

/-! ## `letterbox` (datasets.py lines 621-653) -/

/-- Python's `round` on a value that is exactly representable: round half to
even (banker's rounding), as applied by `int(round(x))` in the source. -/
def pyRound (q : ℚ) : ℤ :=
  if q - ⌊q⌋ < 1 / 2 then ⌊q⌋
  else if 1 / 2 < q - ⌊q⌋ then ⌊q⌋ + 1
  else if ⌊q⌋ % 2 = 0 then ⌊q⌋ else ⌊q⌋ + 1

/-- All observables of one `letterbox` call: the shape of the returned image,
the returned `ratio`, the returned `(dw, dh)` padding pair, and the
aspect-preserving resize size `new_unpad` the image content occupies. -/
structure LbOut where
  outH : ℤ
  outW : ℤ
  ratio : ℚ × ℚ
  padX : ℚ
  padY : ℚ
  unpadW : ℤ
  unpadH : ℤ

/-- `r = min(new_shape[0] / shape[0], new_shape[1] / shape[1])`, capped at
`1.0` when upscaling is disallowed (lines 632-634). -/
def lbRatio (h w nH nW : ℤ) (scaleup : Bool) : ℚ :=
  if scaleup then min ((nH : ℚ) / (h : ℚ)) ((nW : ℚ) / (w : ℚ))
  else min (min ((nH : ℚ) / (h : ℚ)) ((nW : ℚ) / (w : ℚ))) 1

/-- `new_unpad = int(round(shape[1] * r)), int(round(shape[0] * r))`
(line 636), width component. -/
def lbUnpadW (h w nH nW : ℤ) (su : Bool) : ℤ :=
  pyRound ((w : ℚ) * lbRatio h w nH nW su)

/-- `new_unpad`, height component. -/
def lbUnpadH (h w nH nW : ℤ) (su : Bool) : ℤ :=
  pyRound ((h : ℚ) * lbRatio h w nH nW su)

/-- `letterbox(img, new_shape, color, auto, scaleFill, scaleup)` (lines
621-653), for an input image of shape `(h, w)`.  Note the `auto` branch
reduces the padding modulo the hard-coded constant 128 — the function takes
no stride argument. -/
def letterbox (h w : ℤ) (newH newW : ℤ) (auto scaleFill scaleup : Bool) : LbOut :=
  let r : ℚ := lbRatio h w newH newW scaleup
  let nuW0 : ℤ := lbUnpadW h w newH newW scaleup
  let nuH0 : ℤ := lbUnpadH h w newH newW scaleup
  let dw1 : ℤ :=
    if auto then (newW - nuW0) % 128 else if scaleFill then 0 else newW - nuW0
  let dh1 : ℤ :=
    if auto then (newH - nuH0) % 128 else if scaleFill then 0 else newH - nuH0
  let nuW : ℤ := if auto then nuW0 else if scaleFill then newW else nuW0
  let nuH : ℤ := if auto then nuH0 else if scaleFill then newH else nuH0
  let ratio : ℚ × ℚ :=
    if auto then (r, r)
    else if scaleFill then ((newW : ℚ) / (w : ℚ), (newH : ℚ) / (h : ℚ))
    else (r, r)
  let dw : ℚ := (dw1 : ℚ) / 2
  let dh : ℚ := (dh1 : ℚ) / 2
  let top : ℤ := pyRound (dh - 1 / 10)
  let bottom : ℤ := pyRound (dh + 1 / 10)
  let left : ℤ := pyRound (dw - 1 / 10)
  let right : ℤ := pyRound (dw + 1 / 10)
  ⟨nuH + top + bottom, nuW + left + right, ratio, dw, dh, nuW, nuH⟩

/-! ## `random_perspective` and `box_candidates` (datasets.py lines 656-723) -/

/-- A 3x3 homogeneous transform matrix over the exact rationals. -/
structure Mat3 where
  a00 : ℚ
  a01 : ℚ
  a02 : ℚ
  a10 : ℚ
  a11 : ℚ
  a12 : ℚ
  a20 : ℚ
  a21 : ℚ
  a22 : ℚ
deriving DecidableEq

/-- Matrix product (row times column), `A @ B` in numpy. -/
def mul3 (A B : Mat3) : Mat3 :=
  ⟨A.a00 * B.a00 + A.a01 * B.a10 + A.a02 * B.a20,
   A.a00 * B.a01 + A.a01 * B.a11 + A.a02 * B.a21,
   A.a00 * B.a02 + A.a01 * B.a12 + A.a02 * B.a22,
   A.a10 * B.a00 + A.a11 * B.a10 + A.a12 * B.a20,
   A.a10 * B.a01 + A.a11 * B.a11 + A.a12 * B.a21,
   A.a10 * B.a02 + A.a11 * B.a12 + A.a12 * B.a22,
   A.a20 * B.a00 + A.a21 * B.a10 + A.a22 * B.a20,
   A.a20 * B.a01 + A.a21 * B.a11 + A.a22 * B.a21,
   A.a20 * B.a02 + A.a21 * B.a12 + A.a22 * B.a22⟩

/-- `np.eye(3)`. -/
def eye3 : Mat3 := ⟨1, 0, 0, 0, 1, 0, 0, 0, 1⟩

/-- The values drawn from `random.uniform` inside `random_perspective`,
together with the trigonometric functions the source applies to the sampled
angles (computed outside the embedding, since the embedding is exact):
`p20, p21` are the two perspective draws; the rotation draw enters only via
`cv2.getRotationMatrix2D` as `s * cos a` / `s * sin a`, with `s` the sampled
uniform scale; `shearTanX, shearTanY` are `tan` of the sampled shear angles;
`tfx, tfy` are the sampled translation fractions (`uniform(0.5 - t, 0.5 + t)`). -/
structure RPSamples where
  p20 : ℚ
  p21 : ℚ
  s : ℚ
  cosA : ℚ
  sinA : ℚ
  shearTanX : ℚ
  shearTanY : ℚ
  tfx : ℚ
  tfy : ℚ
deriving DecidableEq

/-- The draws produced when `degrees=0, translate=0, scale=0, shear=0,
perspective=0`: every `uniform(c, c)` returns `c`, the angle is `0`
(`cos = 1, sin = 0`), the scale is `1`, the shears are `tan 0 = 0`, and the
translation fractions are `0.5`. -/
def identitySamples : RPSamples := ⟨0, 0, 1, 1, 0, 0, 0, 1 / 2, 1 / 2⟩

/-- The matrix `M = T @ S @ R @ P @ C` of `random_perspective`
(lines 666-684), for an input image of shape `(imgH, imgW)` and the given
border.  Returns `M` with the output canvas `(height, width)`. -/
def rpMatrix (imgH imgW : ℤ) (border : ℤ × ℤ) (smp : RPSamples) :
    Mat3 × ℤ × ℤ :=
  let height : ℤ := imgH + border.1 * 2
  let width : ℤ := imgW + border.2 * 2
  let C : Mat3 := ⟨1, 0, -(imgW : ℚ) / 2, 0, 1, -(imgH : ℚ) / 2, 0, 0, 1⟩
  let P : Mat3 := ⟨1, 0, 0, 0, 1, 0, smp.p20, smp.p21, 1⟩
  let R : Mat3 :=
    ⟨smp.s * smp.cosA, smp.s * smp.sinA, 0,
     -(smp.s * smp.sinA), smp.s * smp.cosA, 0, 0, 0, 1⟩
  let S : Mat3 := ⟨1, smp.shearTanX, 0, smp.shearTanY, 1, 0, 0, 0, 1⟩
  let T : Mat3 := ⟨1, 0, smp.tfx * (width : ℚ), 0, 1, smp.tfy * (height : ℚ), 0, 0, 1⟩
  (mul3 T (mul3 S (mul3 R (mul3 P C))), height, width)

/-- What happened to the pixel raster: passed through untouched, or handed to
`cv2.warpPerspective` / `cv2.warpAffine` with the given matrix and output
canvas (the warps themselves are external library calls). -/
inductive ImgOut where
  | unchanged : ImgOut
  | warpedPerspective : Mat3 → ℤ → ℤ → ImgOut
  | warpedAffine : Mat3 → ℤ → ℤ → ImgOut
deriving DecidableEq

/-- One label row during geometric processing: class and pixel-space corners
`(x1, y1, x2, y2)`. -/
structure LBox where
  cls : ℚ
  x1 : ℚ
  y1 : ℚ
  x2 : ℚ
  y2 : ℚ
deriving DecidableEq

/-- `np.clip(x, lo, hi)`. -/
def clipQ (lo hi x : ℚ) : ℚ := min (max x lo) hi

/-- The float literal `1e-16` used as a division guard. -/
def e16 : ℚ := 1 / 10 ^ 16

/-- `box_candidates(box1, box2, wh_thr=2, ar_thr=20, area_thr=0.2)` (lines
714-723) on a single box pair: candidate boxes must have both sides above
2 px, post/pre area ratio above 0.2, and aspect ratio below 20. -/
def box_candidates (b1x1 b1y1 b1x2 b1y2 b2x1 b2y1 b2x2 b2y2 : ℚ) : Bool :=
  let w1 := b1x2 - b1x1
  let h1 := b1y2 - b1y1
  let w2 := b2x2 - b2x1
  let h2 := b2y2 - b2y1
  let ar := max (w2 / (h2 + e16)) (h2 / (w2 + e16))
  decide (2 < w2) && decide (2 < h2) &&
    decide (1 / 5 < w2 * h2 / (w1 * h1 + e16)) && decide (ar < 20)

/-- Apply `M` to a homogeneous point; returns `(x, y, z)`. -/
def applyM (M : Mat3) (x y : ℚ) : ℚ × ℚ × ℚ :=
  (M.a00 * x + M.a01 * y + M.a02,
   M.a10 * x + M.a11 * y + M.a12,
   M.a20 * x + M.a21 * y + M.a22)

/-- The per-box part of `random_perspective` (lines 694-710): transform all
four corners `(x1,y1), (x2,y2), (x1,y2), (x2,y1)`, divide by `z` when the
`perspective` parameter is nonzero, re-bound by the axis-aligned min/max of
the corner cloud, clip to the output canvas, and keep the box (with the new
coordinates) only if `box_candidates` accepts it against the original box
scaled by the sampled scale `s`. -/
def rpBox (M : Mat3) (persp : ℚ) (width height : ℤ) (s : ℚ) (t : LBox) :
    Option LBox :=
  let c1 := applyM M t.x1 t.y1
  let c2 := applyM M t.x2 t.y2
  let c3 := applyM M t.x1 t.y2
  let c4 := applyM M t.x2 t.y1
  let pt : ℚ × ℚ × ℚ → ℚ × ℚ := fun c =>
    if persp ≠ 0 then (c.1 / c.2.2, c.2.1 / c.2.2) else (c.1, c.2.1)
  let p1 := pt c1
  let p2 := pt c2
  let p3 := pt c3
  let p4 := pt c4
  let nx1 := min (min p1.1 p2.1) (min p3.1 p4.1)
  let ny1 := min (min p1.2 p2.2) (min p3.2 p4.2)
  let nx2 := max (max p1.1 p2.1) (max p3.1 p4.1)
  let ny2 := max (max p1.2 p2.2) (max p3.2 p4.2)
  let cx1 := clipQ 0 (width : ℚ) nx1
  let cy1 := clipQ 0 (height : ℚ) ny1
  let cx2 := clipQ 0 (width : ℚ) nx2
  let cy2 := clipQ 0 (height : ℚ) ny2
  if box_candidates (t.x1 * s) (t.y1 * s) (t.x2 * s) (t.y2 * s) cx1 cy1 cx2 cy2
  then some ⟨t.cls, cx1, cy1, cx2, cy2⟩ else none

/-- `random_perspective(img, targets, degrees, translate, scale, shear,
perspective, border)` (lines 656-711).  The sampled randomness is supplied
through `smp`; `persp` is the `perspective` parameter itself (the source
tests its truthiness to choose projective vs. affine paths).  Returns the
pixel outcome and the surviving transformed label rows. -/
def random_perspective (imgH imgW : ℤ) (targets : List LBox) (persp : ℚ)
    (border : ℤ × ℤ) (smp : RPSamples) : ImgOut × List LBox :=
  let MHW := rpMatrix imgH imgW border smp
  let M := MHW.1
  let height := MHW.2.1
  let width := MHW.2.2
  let img :=
    if border.1 ≠ 0 ∨ border.2 ≠ 0 ∨ M ≠ eye3 then
      if persp ≠ 0 then ImgOut.warpedPerspective M width height
      else ImgOut.warpedAffine M width height
    else ImgOut.unchanged
  (img, targets.filterMap (rpBox M persp width height smp.s))

/-! ## `load_mosaic` (datasets.py lines 559-603) -/

/-- One normalized label row as stored in the dataset:
`(class, cx, cy, w, h)` in `[0, 1]`. -/
structure NLabel where
  cls : ℚ
  cx : ℚ
  cy : ℚ
  bw : ℚ
  bh : ℚ
deriving DecidableEq

/-- An axis-aligned integer rectangle `(x1, y1, x2, y2)`. -/
structure Rect where
  x1 : ℤ
  y1 : ℤ
  x2 : ℤ
  y2 : ℤ
deriving DecidableEq

/-- One source image for the mosaic: its post-`load_image` shape and its
normalized labels.  Index `0` is the requested sample; indices `1..3` are the
three `random.randint`-sampled ones (line 563). -/
structure MosaicSrc where
  w : ℤ
  h : ℤ
  labels : List NLabel

/-- `yc, xc = s, s` (line 562): the mosaic center, returned as `(yc, xc)`. -/
def mosaicCenter (s : ℤ) : ℤ × ℤ := (s, s)

/-- The destination (on the `2s x 2s` canvas) and source (in the image)
rectangles for quadrant `i` of the mosaic (lines 566-578). -/
def quadPlace (s xc yc w h : ℤ) : Fin 4 → Rect × Rect
  | 0 =>
    (⟨max (xc - w) 0, max (yc - h) 0, xc, yc⟩,
     ⟨w - (xc - max (xc - w) 0), h - (yc - max (yc - h) 0), w, h⟩)
  | 1 =>
    (⟨xc, max (yc - h) 0, min (xc + w) (2 * s), yc⟩,
     ⟨0, h - (yc - max (yc - h) 0), min w (min (xc + w) (2 * s) - xc), h⟩)
  | 2 =>
    (⟨max (xc - w) 0, yc, xc, min (2 * s) (yc + h)⟩,
     ⟨w - (xc - max (xc - w) 0), 0, max xc w, min (min (2 * s) (yc + h) - yc) h⟩)
  | 3 =>
    (⟨xc, yc, min (xc + w) (2 * s), min (2 * s) (yc + h)⟩,
     ⟨0, 0, min w (min (xc + w) (2 * s) - xc), min (min (2 * s) (yc + h) - yc) h⟩)

/-- Label translation into mosaic coordinates (lines 583-588): denormalize by
the source's `(w, h)` and shift by `(padw, padh) = (x1a - x1b, y1a - y1b)`. -/
def translateLabel (w h padw padh : ℤ) (x : NLabel) : LBox :=
  ⟨x.cls,
   (w : ℚ) * (x.cx - x.bw / 2) + (padw : ℚ),
   (h : ℚ) * (x.cy - x.bh / 2) + (padh : ℚ),
   (w : ℚ) * (x.cx + x.bw / 2) + (padw : ℚ),
   (h : ℚ) * (x.cy + x.bh / 2) + (padh : ℚ)⟩

/-- `np.clip(labels4[:, 1:], 0, 2 * s)` (line 592) on one row. -/
def clipLBox (s : ℤ) (b : LBox) : LBox :=
  ⟨b.cls, clipQ 0 (2 * (s : ℚ)) b.x1, clipQ 0 (2 * (s : ℚ)) b.y1,
   clipQ 0 (2 * (s : ℚ)) b.x2, clipQ 0 (2 * (s : ℚ)) b.y2⟩

/-- The translated labels of quadrant `i` (lines 580-589). -/
def quadLabels (s : ℤ) (src : MosaicSrc) (i : Fin 4) : List LBox :=
  let c := mosaicCenter s
  let pr := quadPlace s c.2 c.1 src.w src.h i
  let padw := pr.1.x1 - pr.2.x1
  let padh := pr.1.y1 - pr.2.y1
  src.labels.map (translateLabel src.w src.h padw padh)

/-- `labels4` after concatenation and global clipping (lines 590-592). -/
def mosaicLabels (s : ℤ) (srcs : Fin 4 → MosaicSrc) : List LBox :=
  ((List.finRange 4).flatMap (fun i => quadLabels s (srcs i) i)).map (clipLBox s)

/-- `load_mosaic` (lines 559-603): the canvas is the `2s x 2s` mid-gray
square with the four quadrant placements burned in (pixel contents are
external); the concatenated clipped labels feed `random_perspective` with
`border = self.mosaic_border = [-img_size // 2, -img_size // 2]`
(Python floor division). -/
def load_mosaic (s : ℤ) (srcs : Fin 4 → MosaicSrc) (persp : ℚ)
    (smp : RPSamples) : ImgOut × List LBox :=
  random_perspective (2 * s) (2 * s) (mosaicLabels s srcs) persp
    (Int.fdiv (-s) 2, Int.fdiv (-s) 2) smp

/-! ## Rectangular batch shapes (`__init__` lines 335-355) -/

/-- The per-batch `[h, w]` proportion pair (lines 344-351): start from
`[1, 1]`; if the batch's maximal aspect ratio is below 1 use `[maxi, 1]`,
if its minimal aspect ratio is above 1 use `[1, 1 / mini]`. -/
def batchShapePair (ars : List ℚ) : ℚ × ℚ :=
  match ars with
  | [] => (1, 1)
  | a :: rest =>
    let mini := rest.foldl min a
    let maxi := rest.foldl max a
    if maxi < 1 then (maxi, 1)
    else if 1 < mini then (1, 1 / mini)
    else (1, 1)

/-- `np.ceil(np.array(shapes) * img_size / stride + pad).astype(int) * stride`
(lines 352-355) for one batch whose aspect ratios are `ars`. -/
def batchShapes (ars : List ℚ) (imgSize stride : ℤ) (pad : ℚ) : ℤ × ℤ :=
  let p := batchShapePair ars
  (⌈p.1 * (imgSize : ℚ) / (stride : ℚ) + pad⌉ * stride,
   ⌈p.2 * (imgSize : ℚ) / (stride : ℚ) + pad⌉ * stride)

/-- Modelled from the spec: the "square default shape" the claim compares
against — `img_size` rounded up to a multiple of the stride in both
dimensions. -/
def squareDefault (imgSize stride : ℤ) : ℤ × ℤ :=
  (⌈(imgSize : ℚ) / (stride : ℚ)⌉ * stride, ⌈(imgSize : ℚ) / (stride : ℚ)⌉ * stride)

/-! ## `cutout` (datasets.py lines 726-752) -/

/-- `bbox_ioa(box1, box2)` (lines 729-737): intersection area of the mask
`box1` with a label box `box2`, over the label box's own area (plus the
`1e-16` guard). -/
def bbox_ioa (m : Rect) (b : LBox) : ℚ :=
  let inter := max 0 (min (m.x2 : ℚ) b.x2 - max (m.x1 : ℚ) b.x1)
    * max 0 (min (m.y2 : ℚ) b.y2 - max (m.y1 : ℚ) b.y1)
  let area2 := (b.x2 - b.x1) * (b.y2 - b.y1) + e16
  inter / area2

/-- `scales = [0.5] * 1 + [0.25] * 2 + [0.125] * 4 + [0.0625] * 8 +
[0.03125] * 16` (line 739). -/
def cutoutScales : List ℚ :=
  List.replicate 1 (1 / 2) ++ List.replicate 2 (1 / 4) ++
    List.replicate 4 (1 / 8) ++ List.replicate 8 (1 / 16) ++
    List.replicate 16 (1 / 32)

/-- One iteration of the cutout loop (lines 740-751), given the mask
rectangle the random draws produced: labels whose intersection-over-own-area
with the mask is `0.6` or more are dropped (`labels = labels[ioa < 0.60]`),
provided the label set is non-empty and `s > 0.03`. -/
def cutoutStep (s : ℚ) (mask : Rect) (labels : List LBox) : List LBox :=
  if labels.length ≠ 0 ∧ 3 / 100 < s then
    labels.filter (fun l => bbox_ioa mask l < 3 / 5)
  else labels

/-- The whole label-filtering effect of `cutout`: fold the steps over the
scale schedule paired with the sampled mask rectangles. -/
def cutoutLabels : List (ℚ × Rect) → List LBox → List LBox
  | [], labels => labels
  | (s, m) :: rest, labels => cutoutLabels rest (cutoutStep s m labels)

/-! ## Claim theorems: label cache (C1, C9, C10) -/

/-- Auxiliary: `get_hash` over a cons. -/
theorem get_hash_cons (fs : FileSys) (f : String) (rest : List String) :
    get_hash fs (f :: rest)
      = (if (fs f).isSome then (fs f).getD 0 else 0) + get_hash fs rest := by
  by_cases h : (fs f).isSome <;> simp [get_hash, List.filter_cons, h]

/-- C1.  Dataset construction skips the label scan exactly when the cache is
valid: with a persisted cache present, the cached mapping is used and
`cache_labels` is not re-run iff the stored `hash` equals the recomputed
`get_hash` (the sum of file sizes of every label and image file); any
mismatch — or a missing cache file — forces a full rescan via
`cache_labels`, whose result again stores `get_hash` under `hash`. -/
theorem cache_skip_iff_hash_match (stored : CacheData) (fs : FileSys)
    (lf imf : List String) (results : List (Except String CacheEntry)) :
    (loadOrRescan (some stored) fs lf imf (cache_labels fs lf imf results)
        = (stored, false)
      ↔ stored.hash = get_hash fs (lf ++ imf))
    ∧ (stored.hash ≠ get_hash fs (lf ++ imf) →
        loadOrRescan (some stored) fs lf imf (cache_labels fs lf imf results)
          = (cache_labels fs lf imf results, true))
    ∧ loadOrRescan none fs lf imf (cache_labels fs lf imf results)
        = (cache_labels fs lf imf results, true)
    ∧ (cache_labels fs lf imf results).hash = get_hash fs (lf ++ imf) := by
  refine ⟨?_, ?_, rfl, rfl⟩
  · constructor
    · intro hres
      by_cases h : stored.hash = get_hash fs (lf ++ imf)
      · exact h
      · simp only [loadOrRescan, if_neg h, Prod.mk.injEq] at hres
        exact absurd hres.2 (by simp)
    · intro h
      simp [loadOrRescan, h]
  · intro h
    simp [loadOrRescan, h]

/-- Witness for C1 on a concrete two-file file system. -/
theorem cache_skip_iff_hash_match_witness :
    loadOrRescan (some ⟨[], 8⟩)
        (fun f => if f = "a/labels/x.txt" then some 3
          else if f = "a/images/x.jpg" then some 5 else none)
        ["a/labels/x.txt"] ["a/images/x.jpg"]
        (cache_labels
          (fun f => if f = "a/labels/x.txt" then some 3
            else if f = "a/images/x.jpg" then some 5 else none)
          ["a/labels/x.txt"] ["a/images/x.jpg"] [])
      = (⟨[], 8⟩, false) :=
  (cache_skip_iff_hash_match ⟨[], 8⟩ _ _ _ _).1.mpr (by decide)

/-- C9.  A per-file scan failure is recorded as a null (`None`) cache entry
while the scan continues over the remaining files; but at construction,
`zip(*[cache[x] for x in self.img_files])` cannot iterate a `None` entry, so
unpacking fails (Python raises `TypeError`) instead of completing with the
sample as an empty-label entry.  The last conjunct shows the same unpacking
succeeds when no entry is null. -/
theorem null_cache_entry_breaks_unpack :
    cacheEntriesOfScan
        [.error "corrupt image",
          .ok (([[0, 1, 1, 1, 1]], 32, 32) : CacheEntry)]
      = [none, some ([[0, 1, 1, 1, 1]], 32, 32)]
    ∧ unpackEntries [none, some (([[0, 1, 1, 1, 1]], 32, 32) : CacheEntry)]
      = none
    ∧ unpackEntries
        [some (([[0, 1, 1, 1, 1]], 32, 32) : CacheEntry),
          some (([], 24, 24) : CacheEntry)]
      = some ([[[0, 1, 1, 1, 1]], []], [(32, 32), (24, 24)]) := by
  refine ⟨by decide, by decide, by decide⟩

/-- C10.  `get_hash` sums byte sizes over exactly the paths that exist as
files, a missing path contributing `0`; hence creating a previously missing
file with size `0` leaves the hash unchanged, and a previously valid
persisted cache is still taken as valid (same `loadOrRescan` outcome). -/
theorem get_hash_missing_contributes_zero (fs : FileSys) (p : String)
    (hmiss : fs p = none) :
    (∀ paths : List String,
      get_hash fs paths = (paths.map (fun f => (fs f).getD 0)).sum)
    ∧ (∀ paths : List String,
      get_hash (fun q => if q = p then some 0 else fs q) paths
        = get_hash fs paths)
    ∧ ∀ (stored rescan : CacheData) (lf imf : List String),
      loadOrRescan (some stored) (fun q => if q = p then some 0 else fs q)
          lf imf rescan
        = loadOrRescan (some stored) fs lf imf rescan := by
  have htotal : ∀ paths : List String,
      get_hash fs paths = (paths.map (fun f => (fs f).getD 0)).sum := by
    intro paths
    induction paths with
    | nil => rfl
    | cons f rest ih =>
      rw [get_hash_cons, List.map_cons, List.sum_cons, ih]
      by_cases h : (fs f).isSome
      · simp [h]
      · rw [if_neg h]
        rw [Option.not_isSome_iff_eq_none] at h
        simp [h]
  have hsame : ∀ paths : List String,
      get_hash (fun q => if q = p then some 0 else fs q) paths
        = get_hash fs paths := by
    intro paths
    induction paths with
    | nil => rfl
    | cons f rest ih =>
      rw [get_hash_cons, get_hash_cons, ih]
      by_cases hf : f = p
      · subst hf
        simp [hmiss]
      · simp [hf]
  refine ⟨htotal, hsame, ?_⟩
  intro stored rescan lf imf
  simp only [loadOrRescan, hsame (lf ++ imf)]

/-- Witness for C10: creating the missing `"b.txt"` with size 0 leaves the
hash of `["a.txt", "b.txt"]` at 3 and the cache decision unchanged. -/
theorem get_hash_missing_contributes_zero_witness :
    (fun f => if f = "a.txt" then some 3 else none) "b.txt" = none
    ∧ get_hash
        (fun q => if q = "b.txt" then some 0
          else if q = "a.txt" then some 3 else none)
        ["a.txt", "b.txt"]
      = get_hash (fun f => if f = "a.txt" then some 3 else none)
        ["a.txt", "b.txt"] :=
  ⟨by decide,
    (get_hash_missing_contributes_zero
      (fun f => if f = "a.txt" then some 3 else none) "b.txt"
      (by decide)).2.1 ["a.txt", "b.txt"]⟩

/-! ## Claim theorem: label validation (C7) -/

/-- The three per-array assertions of the validation loop. -/
def validArr (l : LabelArr) : Prop :=
  (∀ r ∈ l, r.length = 5) ∧ (∀ r ∈ l, ∀ v ∈ r, 0 ≤ v) ∧
    (∀ r ∈ l, ∀ v ∈ r.tail, v ≤ 1)

instance : DecidablePred validArr := fun _ => by
  unfold validArr; infer_instance

/-- Auxiliary: a fully valid dataset scans to `ok` with unchanged labels and
the three counters. -/
theorem scanLabels_ok_of_valid (labels : List LabelArr)
    (hok : ∀ l ∈ labels, l ≠ [] → validArr l) :
    scanLabels labels false
      = .ok (labels, labels.countP (fun l => !l.isEmpty),
          labels.countP (fun l => l.isEmpty),
          labels.countP (fun l => decide (l.dedup.length < l.length))) := by
  induction labels with
  | nil => rfl
  | cons l rest ih =>
    have ihh := ih (fun x hx hne => hok x (List.mem_cons_of_mem _ hx) hne)
    by_cases hemp : l = []
    · subst hemp
      simp [scanLabels, ihh, List.countP_cons]
    · have hv := hok l (List.mem_cons_self _ _) hemp
      have hlen : ¬ l.length = 0 := by simpa using hemp
      rw [scanLabels, if_neg hlen, dif_pos hv.1, dif_pos hv.2.1, dif_pos hv.2.2,
        ihh]
      have hne : l.isEmpty = false := by simpa using hemp
      simp [List.countP_cons, hne, Nat.add_comm]

/-- Auxiliary: a violating non-empty array anywhere makes the scan abort. -/
theorem scanLabels_error_of_invalid (labels : List LabelArr) (l : LabelArr)
    (hmem : l ∈ labels) (hne : l ≠ []) (hbad : ¬ validArr l) :
    ∃ e, scanLabels labels false = .error e := by
  induction labels with
  | nil => exact absurd hmem (List.not_mem_nil _)
  | cons x rest ih =>
    rcases List.mem_cons.mp hmem with rfl | hrest
    · have hlen : ¬ l.length = 0 := by simpa using hne
      by_cases h5 : ∀ r ∈ l, r.length = 5
      · by_cases hnn : ∀ r ∈ l, ∀ v ∈ r, 0 ≤ v
        · by_cases hc : ∀ r ∈ l, ∀ v ∈ r.tail, v ≤ 1
          · exact absurd ⟨h5, hnn, hc⟩ hbad
          · exact ⟨_, by rw [scanLabels, if_neg hlen, dif_pos h5, dif_pos hnn,
              dif_neg hc]⟩
        · exact ⟨_, by rw [scanLabels, if_neg hlen, dif_pos h5, dif_neg hnn]⟩
      · exact ⟨_, by rw [scanLabels, if_neg hlen, dif_neg h5]⟩
    · obtain ⟨e, he⟩ := ih hrest
      by_cases hemp : x.length = 0
      · exact ⟨e, by rw [scanLabels, if_pos hemp, he]⟩
      · by_cases h5 : ∀ r ∈ x, r.length = 5
        · by_cases hnn : ∀ r ∈ x, ∀ v ∈ r, 0 ≤ v
          · by_cases hc : ∀ r ∈ x, ∀ v ∈ r.tail, v ≤ 1
            · exact ⟨e, by rw [scanLabels, if_neg hemp, dif_pos h5, dif_pos hnn,
                dif_pos hc, he]⟩
            · exact ⟨_, by rw [scanLabels, if_neg hemp, dif_pos h5, dif_pos hnn,
                dif_neg hc]⟩
          · exact ⟨_, by rw [scanLabels, if_neg hemp, dif_pos h5, dif_neg hnn]⟩
        · exact ⟨_, by rw [scanLabels, if_neg hemp, dif_neg h5]⟩

/-- C7.  Every non-empty label array must have exactly 5 columns, all values
nonnegative, and all coordinate columns at most 1; any violation aborts the
whole construction with an error (no per-file skip).  When every array is
valid the scan succeeds, the label arrays are returned unchanged — duplicate
rows are not removed — and the duplicate tally counts exactly the arrays
containing a duplicate row. -/
theorem label_scan_validates_and_keeps_duplicates (labels : List LabelArr) :
    ((∀ l ∈ labels, l ≠ [] → validArr l) →
      scanLabels labels false
        = .ok (labels, labels.countP (fun l => !l.isEmpty),
            labels.countP (fun l => l.isEmpty),
            labels.countP (fun l => decide (l.dedup.length < l.length))))
    ∧ ∀ l ∈ labels, l ≠ [] → ¬ validArr l →
        ∃ e, scanLabels labels false = .error e :=
  ⟨fun hok => scanLabels_ok_of_valid labels hok,
    fun l hmem hne hbad => scanLabels_error_of_invalid labels l hmem hne hbad⟩

/-- Witness for C7: a dataset with one valid singleton array, one empty
array, and one valid array with a duplicated row scans to `ok` with counters
`(found, empty, duplicate) = (2, 1, 1)` and unchanged labels; a negative
class value aborts with an error. -/
theorem label_scan_validates_witness :
    scanLabels [[[0, 1, 1, 1, 1]], [], [[2, 1, 1, 1, 1], [2, 1, 1, 1, 1]]] false
      = .ok ([[[0, 1, 1, 1, 1]], [], [[2, 1, 1, 1, 1], [2, 1, 1, 1, 1]]], 2, 1, 1)
    ∧ ∃ e, scanLabels [[[-1, 1, 1, 1, 1]]] false = .error e := by
  constructor
  · have h := (label_scan_validates_and_keeps_duplicates
      [[[0, 1, 1, 1, 1]], [], [[2, 1, 1, 1, 1], [2, 1, 1, 1, 1]]]).1 (by decide)
    simpa using h
  · exact (label_scan_validates_and_keeps_duplicates [[[-1, 1, 1, 1, 1]]]).2
      [[-1, 1, 1, 1, 1]] (by decide) (by decide) (by decide)

/-! ## Claim theorems: `letterbox` (C3) -/

/-- Auxiliary floor facts around an integer point. -/
theorem floor_int_sub_tenth (k : ℤ) : ⌊(k : ℚ) - 1 / 10⌋ = k - 1 := by
  rw [Int.floor_eq_iff]
  push_cast
  constructor <;> linarith

theorem floor_int_add_tenth (k : ℤ) : ⌊(k : ℚ) + 1 / 10⌋ = k := by
  rw [Int.floor_eq_iff]
  push_cast
  constructor <;> linarith

theorem floor_int_add_two_fifths (k : ℤ) : ⌊(k : ℚ) + 2 / 5⌋ = k := by
  rw [Int.floor_eq_iff]
  push_cast
  constructor <;> linarith

theorem floor_int_add_three_fifths (k : ℤ) : ⌊(k : ℚ) + 3 / 5⌋ = k := by
  rw [Int.floor_eq_iff]
  push_cast
  constructor <;> linarith

theorem pyRound_int_sub_tenth (k : ℤ) : pyRound ((k : ℚ) - 1 / 10) = k := by
  rw [pyRound, floor_int_sub_tenth]
  have e : (k : ℚ) - 1 / 10 - ((k - 1 : ℤ) : ℚ) = 9 / 10 := by push_cast; ring
  rw [e]
  norm_num

theorem pyRound_int_add_tenth (k : ℤ) : pyRound ((k : ℚ) + 1 / 10) = k := by
  rw [pyRound, floor_int_add_tenth]
  have e : (k : ℚ) + 1 / 10 - (k : ℚ) = 1 / 10 := by ring
  rw [e]
  norm_num

theorem pyRound_int_add_two_fifths (k : ℤ) : pyRound ((k : ℚ) + 2 / 5) = k := by
  rw [pyRound, floor_int_add_two_fifths]
  have e : (k : ℚ) + 2 / 5 - (k : ℚ) = 2 / 5 := by ring
  rw [e]
  norm_num

theorem pyRound_int_add_three_fifths (k : ℤ) :
    pyRound ((k : ℚ) + 3 / 5) = k + 1 := by
  rw [pyRound, floor_int_add_three_fifths]
  have e : (k : ℚ) + 3 / 5 - (k : ℚ) = 3 / 5 := by ring
  rw [e]
  norm_num

/-- The `top + bottom = int(round(dh - 0.1)) + int(round(dh + 0.1))` split of
`letterbox` recovers exactly the integer total padding `d` when `dh = d / 2`. -/
theorem pyRound_half_split (d : ℤ) :
    pyRound ((d : ℚ) / 2 - 1 / 10) + pyRound ((d : ℚ) / 2 + 1 / 10) = d := by
  rcases Int.even_or_odd d with ⟨k, hk⟩ | ⟨k, hk⟩
  · subst hk
    have h2a : ((k + k : ℤ) : ℚ) / 2 - 1 / 10 = (k : ℚ) - 1 / 10 := by
      push_cast; ring
    have h2b : ((k + k : ℤ) : ℚ) / 2 + 1 / 10 = (k : ℚ) + 1 / 10 := by
      push_cast; ring
    rw [h2a, h2b, pyRound_int_sub_tenth, pyRound_int_add_tenth]
  · subst hk
    have h2 : ((2 * k + 1 : ℤ) : ℚ) / 2 - 1 / 10 = (k : ℚ) + 2 / 5 := by
      push_cast; ring
    have h3 : ((2 * k + 1 : ℤ) : ℚ) / 2 + 1 / 10 = (k : ℚ) + 3 / 5 := by
      push_cast; ring
    rw [h2, h3, pyRound_int_add_two_fifths, pyRound_int_add_three_fifths]
    ring

/-- Unfolding of the `auto = true, scaleFill = false` path of `letterbox`,
field by field. -/
theorem letterbox_auto_fields (h w nH nW : ℤ) (su : Bool) :
    (letterbox h w nH nW true false su).unpadH = lbUnpadH h w nH nW su
    ∧ (letterbox h w nH nW true false su).unpadW = lbUnpadW h w nH nW su
    ∧ (letterbox h w nH nW true false su).outH
        = lbUnpadH h w nH nW su
          + pyRound ((((nH - lbUnpadH h w nH nW su) % 128 : ℤ) : ℚ) / 2 - 1 / 10)
          + pyRound ((((nH - lbUnpadH h w nH nW su) % 128 : ℤ) : ℚ) / 2 + 1 / 10)
    ∧ (letterbox h w nH nW true false su).outW
        = lbUnpadW h w nH nW su
          + pyRound ((((nW - lbUnpadW h w nH nW su) % 128 : ℤ) : ℚ) / 2 - 1 / 10)
          + pyRound ((((nW - lbUnpadW h w nH nW su) % 128 : ℤ) : ℚ) / 2 + 1 / 10)
    ∧ (letterbox h w nH nW true false su).padY
        = (((nH - lbUnpadH h w nH nW su) % 128 : ℤ) : ℚ) / 2
    ∧ (letterbox h w nH nW true false su).padX
        = (((nW - lbUnpadW h w nH nW su) % 128 : ℤ) : ℚ) / 2 :=
  ⟨rfl, rfl, rfl, rfl, rfl, rfl⟩

/-- C3 (amended).  With `auto` padding, `letterbox` pads each dimension up by
`(target - scaled) mod 128` — the modulus is the hard-coded 128, independent
of any caller stride.  When the target dimension is a multiple of 128, the
output dimension is therefore exactly the smallest multiple of 128 that is
at least the aspect-preserving scaled size; and the scaled size plus the
total padding (twice the returned half-padding `(pad_x, pad_y)`) equals the
output shape, which is what lets callers remap box coordinates into the
padded frame. -/
theorem letterbox_auto_mod128 (h w nH nW : ℤ) (su : Bool)
    (hh : 0 < h) (hw : 0 < w) (hH : nH % 128 = 0) (hW : nW % 128 = 0) :
    ((letterbox h w nH nW true false su).outH
        = (letterbox h w nH nW true false su).unpadH
          + (nH - (letterbox h w nH nW true false su).unpadH) % 128)
    ∧ ((letterbox h w nH nW true false su).outW
        = (letterbox h w nH nW true false su).unpadW
          + (nW - (letterbox h w nH nW true false su).unpadW) % 128)
    ∧ (128 ∣ (letterbox h w nH nW true false su).outH
        ∧ (letterbox h w nH nW true false su).unpadH
          ≤ (letterbox h w nH nW true false su).outH
        ∧ (letterbox h w nH nW true false su).outH
          < (letterbox h w nH nW true false su).unpadH + 128)
    ∧ (128 ∣ (letterbox h w nH nW true false su).outW
        ∧ (letterbox h w nH nW true false su).unpadW
          ≤ (letterbox h w nH nW true false su).outW
        ∧ (letterbox h w nH nW true false su).outW
          < (letterbox h w nH nW true false su).unpadW + 128)
    ∧ (((letterbox h w nH nW true false su).unpadH : ℚ)
        + 2 * (letterbox h w nH nW true false su).padY
        = ((letterbox h w nH nW true false su).outH : ℚ))
    ∧ (((letterbox h w nH nW true false su).unpadW : ℚ)
        + 2 * (letterbox h w nH nW true false su).padX
        = ((letterbox h w nH nW true false su).outW : ℚ)) := by
  obtain ⟨fH, fW, foH, foW, fpY, fpX⟩ := letterbox_auto_fields h w nH nW su
  have houtH : (letterbox h w nH nW true false su).outH
      = lbUnpadH h w nH nW su + (nH - lbUnpadH h w nH nW su) % 128 := by
    rw [foH]
    have := pyRound_half_split ((nH - lbUnpadH h w nH nW su) % 128)
    linarith
  have houtW : (letterbox h w nH nW true false su).outW
      = lbUnpadW h w nH nW su + (nW - lbUnpadW h w nH nW su) % 128 := by
    rw [foW]
    have := pyRound_half_split ((nW - lbUnpadW h w nH nW su) % 128)
    linarith
  refine ⟨by rw [houtH, fH], by rw [houtW, fW], ?_, ?_, ?_, ?_⟩
  · rw [houtH, fH]
    generalize lbUnpadH h w nH nW su = A
    refine ⟨?_, ?_, ?_⟩ <;> omega
  · rw [houtW, fW]
    generalize lbUnpadW h w nH nW su = A
    refine ⟨?_, ?_, ?_⟩ <;> omega
  · rw [houtH, fH, fpY]
    push_cast
    ring
  · rw [houtW, fW, fpX]
    push_cast
    ring

/-- Counterexample to C3 as stated: a 50x100 image letterboxed to target
`(100, 100)` with `auto` padding has scaled size `(50, 100)` but output
height 100, which is not a multiple of the repository's model stride 32 at
all (the smallest stride-32 multiple at least 50 would be 64), nor of 128. -/
theorem letterbox_auto_counterexample :
    (letterbox 50 100 100 100 true false true).unpadH = 50
    ∧ (letterbox 50 100 100 100 true false true).outH = 100
    ∧ ¬ (32 ∣ (letterbox 50 100 100 100 true false true).outH)
    ∧ ¬ (128 ∣ (letterbox 50 100 100 100 true false true).outH) := by
  have h1 : (letterbox 50 100 100 100 true false true).unpadH = 50 := by
    norm_num [letterbox, lbRatio, lbUnpadW, lbUnpadH, pyRound]
  have h2 : (letterbox 50 100 100 100 true false true).outH = 100 := by
    norm_num [letterbox, lbRatio, lbUnpadW, lbUnpadH, pyRound]
  refine ⟨h1, h2, by rw [h2]; decide, by rw [h2]; decide⟩

/-- Witness for C3 (amended) at a 50x100 image and target `(640, 640)`. -/
theorem letterbox_auto_mod128_witness :
    (0 : ℤ) < 50 ∧ (0 : ℤ) < 100 ∧ (640 : ℤ) % 128 = 0
    ∧ (128 ∣ (letterbox 50 100 640 640 true false true).outH
        ∧ (letterbox 50 100 640 640 true false true).unpadH
          ≤ (letterbox 50 100 640 640 true false true).outH
        ∧ (letterbox 50 100 640 640 true false true).outH
          < (letterbox 50 100 640 640 true false true).unpadH + 128) :=
  ⟨by decide, by decide, by decide,
    (letterbox_auto_mod128 50 100 640 640 true (by decide) (by decide)
      (by decide) (by decide)).2.2.1⟩

/-! ## Claim theorems: rectangular batch shapes (C4) -/

/-- Auxiliary: a `foldl min` is a lower bound of the seed and all elements. -/
theorem foldl_min_le (l : List ℚ) :
    ∀ a : ℚ, l.foldl min a ≤ a ∧ ∀ x ∈ l, l.foldl min a ≤ x := by
  induction l with
  | nil => exact fun a => ⟨le_refl a, by simp⟩
  | cons b t ih =>
    intro a
    obtain ⟨h1, h2⟩ := ih (min a b)
    refine ⟨le_trans h1 (min_le_left a b), ?_⟩
    intro x hx
    rcases List.mem_cons.mp hx with rfl | hxt
    · exact le_trans h1 (min_le_right a x)
    · exact h2 x hxt

/-- Auxiliary: a `foldl max` is an upper bound of the seed and all elements. -/
theorem le_foldl_max (l : List ℚ) :
    ∀ a : ℚ, a ≤ l.foldl max a ∧ ∀ x ∈ l, x ≤ l.foldl max a := by
  induction l with
  | nil => exact fun a => ⟨le_refl a, by simp⟩
  | cons b t ih =>
    intro a
    obtain ⟨h1, h2⟩ := ih (max a b)
    refine ⟨le_trans (le_max_left a b) h1, ?_⟩
    intro x hx
    rcases List.mem_cons.mp hx with rfl | hxt
    · exact le_trans (le_max_right a x) h1
    · exact h2 x hxt

/-- C4 (amended).  When a batch's aspect ratios span `1` — some ratio at most
`1` and some at least `1`, as with `0.5, 1.0, 2.0` — neither the `maxi < 1`
nor the `mini > 1` branch fires, the proportion pair stays `[1, 1]`, and the
computed batch shape (with `pad = 0`) is exactly the square default:
`img_size` rounded up to a stride multiple in both dimensions. -/
theorem batch_shape_square_when_aspects_span_one (a : ℚ) (rest : List ℚ)
    (imgSize stride : ℤ)
    (hlo : ∃ x ∈ a :: rest, x ≤ 1) (hhi : ∃ y ∈ a :: rest, 1 ≤ y) :
    batchShapes (a :: rest) imgSize stride 0 = squareDefault imgSize stride := by
  have hpair : batchShapePair (a :: rest) = (1, 1) := by
    obtain ⟨x, hx, hx1⟩ := hlo
    obtain ⟨y, hy, hy1⟩ := hhi
    have hmax : ¬ rest.foldl max a < 1 := by
      obtain ⟨h1, h2⟩ := le_foldl_max rest a
      rcases List.mem_cons.mp hy with rfl | hyt
      · exact not_lt.mpr (le_trans hy1 h1)
      · exact not_lt.mpr (le_trans hy1 (h2 y hyt))
    have hmin : ¬ 1 < rest.foldl min a := by
      obtain ⟨h1, h2⟩ := foldl_min_le rest a
      rcases List.mem_cons.mp hx with rfl | hxt
      · exact not_lt.mpr (le_trans h1 hx1)
      · exact not_lt.mpr (le_trans (h2 x hxt) hx1)
    simp only [batchShapePair, if_neg hmax, if_neg hmin]
  simp only [batchShapes, hpair, squareDefault, one_mul, add_zero]

/-- Counterexample to C4 as stated: for one batch of three images with
aspect ratios `0.5, 1.0, 2.0` (`img_size = 640`, `stride = 32`, `pad = 0`),
the computed batch shape is `(640, 640)` — equal to the square default, not
different from it. -/
theorem batch_shape_mixed_aspects_counterexample :
    batchShapes [1 / 2, 1, 2] 640 32 0 = (640, 640)
    ∧ squareDefault 640 32 = (640, 640) := by
  constructor
  · norm_num [batchShapes, batchShapePair]
  · norm_num [squareDefault]

/-- Witness for C4 (amended) on the batch `0.5, 1.0, 2.0`. -/
theorem batch_shape_square_witness :
    (∃ x ∈ [(1 : ℚ) / 2, 1, 2], x ≤ 1) ∧ (∃ y ∈ [(1 : ℚ) / 2, 1, 2], 1 ≤ y)
    ∧ batchShapes [1 / 2, 1, 2] 640 32 0 = squareDefault 640 32 :=
  ⟨⟨1, by norm_num⟩, ⟨2, by norm_num⟩,
    batch_shape_square_when_aspects_span_one (1 / 2) [1, 2] 640 32
      ⟨1, by norm_num⟩ ⟨2, by norm_num⟩⟩

/-! ## Claim theorems: `cutout` (C8) -/

/-- Every scale in the cutout schedule is above the `0.03` label-filter
threshold. -/
theorem cutoutScales_gt (s : ℚ) (hs : s ∈ cutoutScales) : 3 / 100 < s := by
  simp only [cutoutScales, List.mem_append, List.mem_replicate] at hs
  rcases hs with ((((h | h) | h) | h) | h) <;> rw [h.2] <;> norm_num

/-- C8 (amended).  The cutout schedule starts at scale `0.5` — one mask at
`0.5`, then two at `0.25`, four at `0.125`, eight at `0.0625`, sixteen at
`0.03125`: each scale halves while its count doubles.  Every step filters
(never clips) the labels, removing exactly those whose intersection area
with the mask divided by the label's own area reaches `0.6`
(`labels[ioa < 0.6]` keeps strictly smaller ones). -/
theorem cutout_schedule_and_filter :
    cutoutScales
      = (List.range 5).flatMap
          (fun k => List.replicate (2 ^ k) ((1 / 2 : ℚ) ^ (k + 1)))
    ∧ (∀ (s : ℚ) (mask : Rect) (labels : List LBox),
        s ∈ cutoutScales → labels ≠ [] →
        cutoutStep s mask labels
          = labels.filter (fun l => decide (bbox_ioa mask l < 3 / 5)))
    ∧ ∀ (s : ℚ) (mask : Rect) (labels : List LBox) (l : LBox),
        s ∈ cutoutScales → labels ≠ [] →
        (l ∈ cutoutStep s mask labels ↔ l ∈ labels ∧ bbox_ioa mask l < 3 / 5) := by
  have hstep : ∀ (s : ℚ) (mask : Rect) (labels : List LBox),
      s ∈ cutoutScales → labels ≠ [] →
      cutoutStep s mask labels
        = labels.filter (fun l => decide (bbox_ioa mask l < 3 / 5)) := by
    intro s mask labels hs hne
    have hlen : labels.length ≠ 0 := by simpa using hne
    rw [cutoutStep, if_pos ⟨hlen, cutoutScales_gt s hs⟩]
  refine ⟨?_, hstep, ?_⟩
  · have hr : List.range 5 = [0, 1, 2, 3, 4] := rfl
    rw [hr]
    norm_num [cutoutScales, List.replicate_succ]
  · intro s mask labels l hs hne
    rw [hstep s mask labels hs hne, List.mem_filter]
    simp

/-- Counterexample to C8 as stated: the first (largest) cutout scale is
`0.5`, not `1`, so the schedule `1, 2x0.25, 4x0.125, ...` is wrong. -/
theorem cutout_scales_counterexample :
    cutoutScales.head? = some (1 / 2)
    ∧ (1 / 2 : ℚ) ≠ 1
    ∧ cutoutScales
        ≠ [1] ++ List.replicate 2 ((1 : ℚ) / 4) ++ List.replicate 4 (1 / 8)
            ++ List.replicate 8 (1 / 16) ++ List.replicate 16 (1 / 32) := by
  refine ⟨by norm_num [cutoutScales], by norm_num, ?_⟩
  intro h
  have h1 : cutoutScales.head? = some 1 := by rw [h]; rfl
  have h2 : cutoutScales.head? = some (1 / 2) := by norm_num [cutoutScales]
  rw [h1] at h2
  have h3 : (1 : ℚ) = 1 / 2 := Option.some.inj h2
  norm_num at h3

/-- Witness for C8 (amended): one mask at scale `0.5` over two labels removes
exactly the covered one and leaves the other untouched. -/
theorem cutout_schedule_and_filter_witness :
    ((1 / 2 : ℚ) ∈ cutoutScales)
    ∧ ([⟨0, 0, 0, 4, 4⟩, ⟨0, 20, 20, 30, 30⟩] : List LBox) ≠ []
    ∧ cutoutStep (1 / 2) ⟨0, 0, 10, 10⟩ [⟨0, 0, 0, 4, 4⟩, ⟨0, 20, 20, 30, 30⟩]
      = ([⟨0, 0, 0, 4, 4⟩, ⟨0, 20, 20, 30, 30⟩] : List LBox).filter
          (fun l => decide (bbox_ioa ⟨0, 0, 10, 10⟩ l < 3 / 5)) :=
  ⟨by norm_num [cutoutScales], by simp,
    cutout_schedule_and_filter.2.1 (1 / 2) ⟨0, 0, 10, 10⟩
      [⟨0, 0, 0, 4, 4⟩, ⟨0, 20, 20, 30, 30⟩]
      (by norm_num [cutoutScales]) (by simp)⟩

/-! ## Claim theorems: `random_perspective` identity (C2) -/

/-- With the identity draws and zero border, `M = T @ S @ R @ P @ C` is
exactly the identity matrix: the `T` translation to the canvas center
cancels the `C` recentering. -/
theorem rpMatrix_identity (imgH imgW : ℤ) :
    rpMatrix imgH imgW (0, 0) identitySamples = (eye3, imgH, imgW) := by
  simp only [rpMatrix, mul3, identitySamples, eye3, Prod.mk.injEq, Mat3.mk.injEq]
  norm_num
  constructor <;> ring

/-- Identity transform of one in-bounds box: the corner cloud re-bounds and
clips to the very same box, and survival is decided by `box_candidates`
applied to the box against itself. -/
theorem rpBox_identity (w h : ℤ) (t : LBox)
    (hb : 0 ≤ t.x1 ∧ t.x1 ≤ t.x2 ∧ t.x2 ≤ (w : ℚ) ∧ 0 ≤ t.y1 ∧ t.y1 ≤ t.y2
      ∧ t.y2 ≤ (h : ℚ)) :
    rpBox eye3 0 w h 1 t
      = if box_candidates t.x1 t.y1 t.x2 t.y2 t.x1 t.y1 t.x2 t.y2 then some t
        else none := by
  obtain ⟨h1, h2, h3, h4, h5, h6⟩ := hb
  have hx : min (min t.x1 t.x2) (min t.x1 t.x2) = t.x1 := by
    rw [min_self, min_eq_left h2]
  have hX : max (max t.x1 t.x2) (max t.x1 t.x2) = t.x2 := by
    rw [max_self, max_eq_right h2]
  have hy : min (min t.y1 t.y2) (min t.y2 t.y1) = t.y1 := by
    rw [min_comm t.y2 t.y1, min_self, min_eq_left h5]
  have hY : max (max t.y1 t.y2) (max t.y2 t.y1) = t.y2 := by
    rw [max_comm t.y2 t.y1, max_self, max_eq_right h5]
  have cx1 : clipQ 0 (w : ℚ) t.x1 = t.x1 := by
    rw [clipQ, max_eq_left h1, min_eq_left (le_trans h2 h3)]
  have cx2 : clipQ 0 (w : ℚ) t.x2 = t.x2 := by
    rw [clipQ, max_eq_left (le_trans h1 h2), min_eq_left h3]
  have cy1 : clipQ 0 (h : ℚ) t.y1 = t.y1 := by
    rw [clipQ, max_eq_left h4, min_eq_left (le_trans h5 h6)]
  have cy2 : clipQ 0 (h : ℚ) t.y2 = t.y2 := by
    rw [clipQ, max_eq_left (le_trans h4 h5), min_eq_left h6]
  simp only [rpBox, applyM, eye3, one_mul, zero_mul, add_zero, zero_add,
    mul_one, mul_zero, ne_eq, eq_self_iff_true, not_true_eq_false, if_false]
  rw [hx, hy, hX, hY, cx1, cx2, cy1, cy2]

/-- The identity `filterMap` over in-bounds boxes is the `box_candidates`
filter. -/
theorem filterMap_rpBox_identity (w h : ℤ) (targets : List LBox)
    (hb : ∀ t ∈ targets, 0 ≤ t.x1 ∧ t.x1 ≤ t.x2 ∧ t.x2 ≤ (w : ℚ) ∧ 0 ≤ t.y1
      ∧ t.y1 ≤ t.y2 ∧ t.y2 ≤ (h : ℚ)) :
    targets.filterMap (rpBox eye3 0 w h 1)
      = targets.filter
          (fun t => box_candidates t.x1 t.y1 t.x2 t.y2 t.x1 t.y1 t.x2 t.y2) := by
  induction targets with
  | nil => rfl
  | cons t ts ih =>
    have hbt := hb t (List.mem_cons_self _ _)
    have hbts : ∀ x ∈ ts, _ := fun x hx => hb x (List.mem_cons_of_mem _ hx)
    rw [List.filterMap_cons, List.filter_cons, rpBox_identity w h t hbt,
      ih hbts]
    by_cases hc : box_candidates t.x1 t.y1 t.x2 t.y2 t.x1 t.y1 t.x2 t.y2 = true
    · rw [if_pos hc, hc, if_pos rfl]
    · rw [if_neg hc]
      have hcf : box_candidates t.x1 t.y1 t.x2 t.y2 t.x1 t.y1 t.x2 t.y2
          = false := by
        simpa using hc
      rw [hcf]
      simp

/-- C2 (amended).  With the identity parameters (`degrees=0, translate=0`,
sampled scale `1`, `shear=0, perspective=0`) and zero border, the pixels are
passed through untouched, and every box whose corners lie inside the image is
transformed and clipped to itself; the output is however still the
`box_candidates` filter of the input — a box with a side of at most 2 px, a
degenerate area ratio, or aspect ratio at least 20 is dropped even by the
identity transform; surviving boxes are returned unchanged. -/
theorem identity_perspective_filters_boxes (imgH imgW : ℤ)
    (targets : List LBox)
    (hb : ∀ t ∈ targets, 0 ≤ t.x1 ∧ t.x1 ≤ t.x2 ∧ t.x2 ≤ (imgW : ℚ) ∧ 0 ≤ t.y1
      ∧ t.y1 ≤ t.y2 ∧ t.y2 ≤ (imgH : ℚ)) :
    random_perspective imgH imgW targets 0 (0, 0) identitySamples
      = (ImgOut.unchanged,
         targets.filter
           (fun t => box_candidates t.x1 t.y1 t.x2 t.y2 t.x1 t.y1 t.x2 t.y2)) := by
  have hM := rpMatrix_identity imgH imgW
  simp only [random_perspective, hM]
  rw [show identitySamples.s = 1 from rfl,
    filterMap_rpBox_identity imgW imgH targets hb]
  norm_num

/-- Counterexample to C2 as stated: on a 10x10 image with the identity
parameters and zero border, the in-bounds unit box `(x1,y1,x2,y2) =
(0,0,1,1)` is dropped by `box_candidates` (its sides are not above 2 px),
so not every box survives the identity transform. -/
theorem identity_perspective_counterexample :
    random_perspective 10 10 [⟨0, 0, 0, 1, 1⟩] 0 (0, 0) identitySamples
      = (ImgOut.unchanged, []) := by
  norm_num [random_perspective, rpMatrix, mul3, identitySamples, eye3, rpBox,
    applyM, clipQ, box_candidates, e16, List.filterMap_cons]

/-- Witness for C2 (amended): a 4x4 box at (1,1) on a 10x10 image is in
bounds, passes `box_candidates`, and survives unchanged. -/
theorem identity_perspective_filters_boxes_witness :
    (∀ t ∈ ([⟨0, 1, 1, 5, 5⟩] : List LBox), 0 ≤ t.x1 ∧ t.x1 ≤ t.x2
      ∧ t.x2 ≤ ((10 : ℤ) : ℚ) ∧ 0 ≤ t.y1 ∧ t.y1 ≤ t.y2 ∧ t.y2 ≤ ((10 : ℤ) : ℚ))
    ∧ random_perspective 10 10 [⟨0, 1, 1, 5, 5⟩] 0 (0, 0) identitySamples
      = (ImgOut.unchanged,
         ([⟨0, 1, 1, 5, 5⟩] : List LBox).filter
           (fun t => box_candidates t.x1 t.y1 t.x2 t.y2 t.x1 t.y1 t.x2 t.y2)) :=
  ⟨by norm_num,
    identity_perspective_filters_boxes 10 10 [⟨0, 1, 1, 5, 5⟩] (by norm_num)⟩

/-! ## Claim theorems: mosaic quadrant geometry (C5, C6) -/

/-- The composed per-box observable of `load_mosaic`: one normalized label of
the source placed in quadrant `i`, after denormalization, translation by that
quadrant's `(padw, padh)`, and the global clip to `[0, 2s]`. -/
def mosaicPlacedBox (s w h : ℤ) (i : Fin 4) (l : NLabel) : LBox :=
  let pr := quadPlace s s s w h i
  clipLBox s (translateLabel w h (pr.1.x1 - pr.2.x1) (pr.1.y1 - pr.2.y1) l)

/-- The canvas rectangle quadrant `i`'s cropped source pixels occupy. -/
def mosaicDest (s w h : ℤ) (i : Fin 4) : Rect := (quadPlace s s s w h i).1

/-- Auxiliary: a coordinate of the form `(s - d) + d * q` with `q ∈ [0, 1]`,
clipped to `[0, 2s]`, lies in `[max (s - d) 0, s]` — the horizontal extent of
a left/top ("low") quadrant. -/
theorem clip_low_quad (s d q : ℚ) (hs : 0 ≤ s) (hd : 0 ≤ d)
    (h0 : 0 ≤ q) (h1 : q ≤ 1) :
    max (s - d) 0 ≤ clipQ 0 (2 * s) (s - d + d * q)
    ∧ clipQ 0 (2 * s) (s - d + d * q) ≤ s := by
  have ht1 : s - d ≤ s - d + d * q := by nlinarith
  have ht2 : s - d + d * q ≤ s := by nlinarith
  constructor
  · refine le_min (max_le_max ht1 (le_refl 0)) ?_
    calc max (s - d) 0 ≤ max s 0 := max_le_max (by linarith) (le_refl 0)
      _ = s := max_eq_left hs
      _ ≤ 2 * s := by linarith
  · calc min (max (s - d + d * q) 0) (2 * s) ≤ max (s - d + d * q) 0 :=
        min_le_left _ _
      _ ≤ max s 0 := max_le_max ht2 (le_refl 0)
      _ = s := max_eq_left hs

/-- Auxiliary: a coordinate of the form `s + d * q` with `q ∈ [0, 1]`,
clipped to `[0, 2s]`, lies in `[s, min (s + d) (2s)]` — the horizontal extent
of a right/bottom ("high") quadrant. -/
theorem clip_high_quad (s d q : ℚ) (hs : 0 ≤ s) (hd : 0 ≤ d)
    (h0 : 0 ≤ q) (h1 : q ≤ 1) :
    s ≤ clipQ 0 (2 * s) (s + d * q)
    ∧ clipQ 0 (2 * s) (s + d * q) ≤ min (s + d) (2 * s) := by
  have ht0 : 0 ≤ d * q := mul_nonneg hd h0
  have ht1 : s ≤ s + d * q := by linarith
  have ht2 : s + d * q ≤ s + d := by nlinarith
  constructor
  · refine le_min (le_trans ht1 (le_max_left _ _)) (by linarith)
  · refine min_le_min ?_ (le_refl _)
    rw [max_eq_left (by linarith)]
    exact ht2

/-- Auxiliary: clip bound in the exact shape produced by `translateLabel` in
a low (left/top) quadrant, where `padw = s - d`. -/
theorem low_bound (s d q : ℚ) (hs : 0 ≤ s) (hd : 0 ≤ d)
    (h0 : 0 ≤ q) (h1 : q ≤ 1) :
    max (s - d) 0 ≤ clipQ 0 (2 * s) (d * q + (s - d))
    ∧ clipQ 0 (2 * s) (d * q + (s - d)) ≤ s := by
  have e : d * q + (s - d) = s - d + d * q := by ring
  rw [e]
  exact clip_low_quad s d q hs hd h0 h1

/-- Auxiliary: clip bound in the exact shape produced by `translateLabel` in
a high (right/bottom) quadrant, where `padw = s`. -/
theorem high_bound (s d q : ℚ) (hs : 0 ≤ s) (hd : 0 ≤ d)
    (h0 : 0 ≤ q) (h1 : q ≤ 1) :
    s ≤ clipQ 0 (2 * s) (d * q + s)
    ∧ clipQ 0 (2 * s) (d * q + s) ≤ min (s + d) (2 * s) := by
  have e : d * q + s = s + d * q := by ring
  rw [e]
  exact clip_high_quad s d q hs hd h0 h1

/-- C6 (amended).  A box whose corners lie inside its source image
(`0 ≤ cx - w/2`, `cx + w/2 ≤ 1`, and likewise vertically) lands, after
denormalization, quadrant translation, and the global clip to `[0, 2s]`,
entirely inside the canvas rectangle occupied by that quadrant's cropped
pixels — for every quadrant and every source size. -/
theorem mosaic_inbounds_box_in_quadrant (s w h : ℤ) (i : Fin 4) (l : NLabel)
    (hs : 0 ≤ s) (hw : 0 ≤ w) (hh : 0 ≤ h)
    (hbw : 0 ≤ l.bw) (hbh : 0 ≤ l.bh)
    (hx0 : 0 ≤ l.cx - l.bw / 2) (hx1 : l.cx + l.bw / 2 ≤ 1)
    (hy0 : 0 ≤ l.cy - l.bh / 2) (hy1 : l.cy + l.bh / 2 ≤ 1) :
    (((mosaicDest s w h i).x1 : ℚ) ≤ (mosaicPlacedBox s w h i l).x1
      ∧ (mosaicPlacedBox s w h i l).x1 ≤ ((mosaicDest s w h i).x2 : ℚ))
    ∧ (((mosaicDest s w h i).x1 : ℚ) ≤ (mosaicPlacedBox s w h i l).x2
      ∧ (mosaicPlacedBox s w h i l).x2 ≤ ((mosaicDest s w h i).x2 : ℚ))
    ∧ (((mosaicDest s w h i).y1 : ℚ) ≤ (mosaicPlacedBox s w h i l).y1
      ∧ (mosaicPlacedBox s w h i l).y1 ≤ ((mosaicDest s w h i).y2 : ℚ))
    ∧ (((mosaicDest s w h i).y1 : ℚ) ≤ (mosaicPlacedBox s w h i l).y2
      ∧ (mosaicPlacedBox s w h i l).y2 ≤ ((mosaicDest s w h i).y2 : ℚ)) := by
  have hsq : (0 : ℚ) ≤ (s : ℚ) := by exact_mod_cast hs
  have hwq : (0 : ℚ) ≤ (w : ℚ) := by exact_mod_cast hw
  have hhq : (0 : ℚ) ≤ (h : ℚ) := by exact_mod_cast hh
  have hu1 : l.cx - l.bw / 2 ≤ 1 := by linarith
  have hv0 : 0 ≤ l.cx + l.bw / 2 := by linarith
  have hp1 : l.cy - l.bh / 2 ≤ 1 := by linarith
  have hq0 : 0 ≤ l.cy + l.bh / 2 := by linarith
  have hcmaxw : ((max (s - w) 0 : ℤ) : ℚ) = max ((s : ℚ) - (w : ℚ)) 0 := by
    push_cast
    ring_nf
  have hcmaxh : ((max (s - h) 0 : ℤ) : ℚ) = max ((s : ℚ) - (h : ℚ)) 0 := by
    push_cast
    ring_nf
  have hcminw : ((min (s + w) (2 * s) : ℤ) : ℚ)
      = min ((s : ℚ) + (w : ℚ)) (2 * (s : ℚ)) := by
    push_cast
    ring_nf
  have hcminh : ((min (2 * s) (s + h) : ℤ) : ℚ)
      = min ((s : ℚ) + (h : ℚ)) (2 * (s : ℚ)) := by
    push_cast
    rw [min_comm]
  fin_cases i
  · simp only [mosaicDest, mosaicPlacedBox, quadPlace, clipLBox, translateLabel]
    have hpwx : ((max (s - w) 0 - (w - (s - max (s - w) 0)) : ℤ) : ℚ)
        = (s : ℚ) - (w : ℚ) := by push_cast; ring
    have hpwy : ((max (s - h) 0 - (h - (s - max (s - h) 0)) : ℤ) : ℚ)
        = (s : ℚ) - (h : ℚ) := by push_cast; ring
    rw [hpwx, hpwy, hcmaxw, hcmaxh]
    exact ⟨⟨(low_bound _ _ _ hsq hwq hx0 hu1).1, (low_bound _ _ _ hsq hwq hx0 hu1).2⟩,
      ⟨(low_bound _ _ _ hsq hwq hv0 hx1).1, (low_bound _ _ _ hsq hwq hv0 hx1).2⟩,
      ⟨(low_bound _ _ _ hsq hhq hy0 hp1).1, (low_bound _ _ _ hsq hhq hy0 hp1).2⟩,
      ⟨(low_bound _ _ _ hsq hhq hq0 hy1).1, (low_bound _ _ _ hsq hhq hq0 hy1).2⟩⟩
  · simp only [mosaicDest, mosaicPlacedBox, quadPlace, clipLBox, translateLabel]
    have hpwx : ((s - 0 : ℤ) : ℚ) = (s : ℚ) := by push_cast; ring
    have hpwy : ((max (s - h) 0 - (h - (s - max (s - h) 0)) : ℤ) : ℚ)
        = (s : ℚ) - (h : ℚ) := by push_cast; ring
    rw [hpwx, hpwy, hcmaxh, hcminw]
    exact ⟨⟨(high_bound _ _ _ hsq hwq hx0 hu1).1, (high_bound _ _ _ hsq hwq hx0 hu1).2⟩,
      ⟨(high_bound _ _ _ hsq hwq hv0 hx1).1, (high_bound _ _ _ hsq hwq hv0 hx1).2⟩,
      ⟨(low_bound _ _ _ hsq hhq hy0 hp1).1, (low_bound _ _ _ hsq hhq hy0 hp1).2⟩,
      ⟨(low_bound _ _ _ hsq hhq hq0 hy1).1, (low_bound _ _ _ hsq hhq hq0 hy1).2⟩⟩
  · simp only [mosaicDest, mosaicPlacedBox, quadPlace, clipLBox, translateLabel]
    have hpwx : ((max (s - w) 0 - (w - (s - max (s - w) 0)) : ℤ) : ℚ)
        = (s : ℚ) - (w : ℚ) := by push_cast; ring
    have hpwy : ((s - 0 : ℤ) : ℚ) = (s : ℚ) := by push_cast; ring
    rw [hpwx, hpwy, hcmaxw, hcminh]
    exact ⟨⟨(low_bound _ _ _ hsq hwq hx0 hu1).1, (low_bound _ _ _ hsq hwq hx0 hu1).2⟩,
      ⟨(low_bound _ _ _ hsq hwq hv0 hx1).1, (low_bound _ _ _ hsq hwq hv0 hx1).2⟩,
      ⟨(high_bound _ _ _ hsq hhq hy0 hp1).1, (high_bound _ _ _ hsq hhq hy0 hp1).2⟩,
      ⟨(high_bound _ _ _ hsq hhq hq0 hy1).1, (high_bound _ _ _ hsq hhq hq0 hy1).2⟩⟩
  · simp only [mosaicDest, mosaicPlacedBox, quadPlace, clipLBox, translateLabel]
    have hpwx : ((s - 0 : ℤ) : ℚ) = (s : ℚ) := by push_cast; ring
    rw [hpwx, hcminw, hcminh]
    exact ⟨⟨(high_bound _ _ _ hsq hwq hx0 hu1).1, (high_bound _ _ _ hsq hwq hx0 hu1).2⟩,
      ⟨(high_bound _ _ _ hsq hwq hv0 hx1).1, (high_bound _ _ _ hsq hwq hv0 hx1).2⟩,
      ⟨(high_bound _ _ _ hsq hhq hy0 hp1).1, (high_bound _ _ _ hsq hhq hy0 hp1).2⟩,
      ⟨(high_bound _ _ _ hsq hhq hq0 hy1).1, (high_bound _ _ _ hsq hhq hq0 hy1).2⟩⟩

/-- C5 (amended).  `load_mosaic` concatenates, over the four quadrants, each
source's labels denormalized, translated by the quadrant offset, and clipped
to the `2s x 2s` canvas, then feeds them to `random_perspective` with border
`(-img_size // 2, -img_size // 2)`; the center is the FIXED point
`(yc, xc) = (s, s)` (no jitter in this code), and each quadrant's destination
rectangle stays inside the canvas, is cropped to at most the source size and
at most `s` per side, and abuts the center on its inner sides. -/
theorem load_mosaic_structure (s : ℤ) (srcs : Fin 4 → MosaicSrc) (persp : ℚ)
    (smp : RPSamples) (hs : 0 ≤ s) (hw : ∀ i, 0 ≤ (srcs i).w)
    (hh : ∀ i, 0 ≤ (srcs i).h) :
    mosaicCenter s = (s, s)
    ∧ load_mosaic s srcs persp smp
        = random_perspective (2 * s) (2 * s)
            ((List.finRange 4).flatMap
              (fun i => (srcs i).labels.map
                (mosaicPlacedBox s (srcs i).w (srcs i).h i)))
            persp (Int.fdiv (-s) 2, Int.fdiv (-s) 2) smp
    ∧ (∀ i : Fin 4,
        0 ≤ (mosaicDest s (srcs i).w (srcs i).h i).x1
        ∧ (mosaicDest s (srcs i).w (srcs i).h i).x2 ≤ 2 * s
        ∧ 0 ≤ (mosaicDest s (srcs i).w (srcs i).h i).y1
        ∧ (mosaicDest s (srcs i).w (srcs i).h i).y2 ≤ 2 * s
        ∧ (mosaicDest s (srcs i).w (srcs i).h i).x2
            - (mosaicDest s (srcs i).w (srcs i).h i).x1 ≤ (srcs i).w
        ∧ (mosaicDest s (srcs i).w (srcs i).h i).x2
            - (mosaicDest s (srcs i).w (srcs i).h i).x1 ≤ s
        ∧ (mosaicDest s (srcs i).w (srcs i).h i).y2
            - (mosaicDest s (srcs i).w (srcs i).h i).y1 ≤ (srcs i).h
        ∧ (mosaicDest s (srcs i).w (srcs i).h i).y2
            - (mosaicDest s (srcs i).w (srcs i).h i).y1 ≤ s)
    ∧ ((mosaicDest s (srcs 0).w (srcs 0).h 0).x2 = s
        ∧ (mosaicDest s (srcs 0).w (srcs 0).h 0).y2 = s)
    ∧ ((mosaicDest s (srcs 1).w (srcs 1).h 1).x1 = s
        ∧ (mosaicDest s (srcs 1).w (srcs 1).h 1).y2 = s)
    ∧ ((mosaicDest s (srcs 2).w (srcs 2).h 2).x2 = s
        ∧ (mosaicDest s (srcs 2).w (srcs 2).h 2).y1 = s)
    ∧ ((mosaicDest s (srcs 3).w (srcs 3).h 3).x1 = s
        ∧ (mosaicDest s (srcs 3).w (srcs 3).h 3).y1 = s) := by
  refine ⟨rfl, ?_, ?_, ⟨rfl, rfl⟩, ⟨rfl, rfl⟩, ⟨rfl, rfl⟩, ⟨rfl, rfl⟩⟩
  · unfold load_mosaic mosaicLabels
    congr 1
    rw [List.map_flatMap]
    congr 1
    funext i
    rw [quadLabels, List.map_map]
    rfl
  · intro i
    have hwi := hw i
    have hhi := hh i
    fin_cases i <;>
      simp only [mosaicDest, quadPlace] <;>
      refine ⟨?_, ?_, ?_, ?_, ?_, ?_, ?_, ?_⟩ <;>
      (try simp only [max_def, min_def]) <;>
      (try split_ifs) <;>
      omega

/-- Counterexample to C5 as stated: the mosaic center is the constant
`(yc, xc) = (s, s)` — line 562 of the source assigns it deterministically,
so it is not a jittered (randomly perturbed) point. -/
theorem mosaic_center_fixed_counterexample : mosaicCenter 640 = (640, 640) := rfl

/-- Witness for C5 (amended) on a concrete mosaic of four 2x2 sources with
canvas side 8 (`s = 4`). -/
theorem load_mosaic_structure_witness :
    (0 : ℤ) ≤ 4
    ∧ mosaicCenter 4 = (4, 4)
    ∧ load_mosaic 4 (fun _ => ⟨2, 2, []⟩) 0 identitySamples
        = random_perspective (2 * 4) (2 * 4)
            ((List.finRange 4).flatMap
              (fun i => (((fun _ => ⟨2, 2, []⟩ : Fin 4 → MosaicSrc) i).labels).map
                (mosaicPlacedBox 4 ((fun _ => (⟨2, 2, []⟩ : MosaicSrc)) i).w
                  ((fun _ => (⟨2, 2, []⟩ : MosaicSrc)) i).h i)))
            0 (Int.fdiv (-4) 2, Int.fdiv (-4) 2) identitySamples :=
  ⟨by decide,
    (load_mosaic_structure 4 (fun _ => ⟨2, 2, []⟩) 0 identitySamples
      (by decide) (by decide) (by decide)).1,
    (load_mosaic_structure 4 (fun _ => ⟨2, 2, []⟩) 0 identitySamples
      (by decide) (by decide) (by decide)).2.1⟩

/-- Counterexample to C6 as stated: with `s = 4` and a 2x2 source in
quadrant 0, the label `(cls, cx, cy, w, h) = (0, 1/4, 1/2, 1, 1)` — legal
under the dataset validation invariants — translates and clips to a box
whose left edge `3/2` lies strictly outside the quadrant's occupied
rectangle, which starts at `x = 2`. -/
theorem mosaic_box_bleeds_counterexample :
    (mosaicDest 4 2 2 0).x1 = 2
    ∧ (mosaicPlacedBox 4 2 2 0 ⟨0, 1 / 4, 1 / 2, 1, 1⟩).x1 = 3 / 2
    ∧ ¬ (((mosaicDest 4 2 2 0).x1 : ℚ)
          ≤ (mosaicPlacedBox 4 2 2 0 ⟨0, 1 / 4, 1 / 2, 1, 1⟩).x1) := by
  refine ⟨rfl, ?_, ?_⟩ <;>
    norm_num [mosaicPlacedBox, mosaicDest, quadPlace, clipLBox, translateLabel,
      clipQ]

/-- Witness for C6 (amended): an in-bounds label (`cx = cy = 1/2`,
`w = h = 1/2`) in quadrant 0 of an `s = 4` mosaic stays inside the occupied
rectangle. -/
theorem mosaic_inbounds_box_witness :
    (0 ≤ (1 : ℚ) / 2 - (1 / 2 : ℚ) / 2 ∧ (1 : ℚ) / 2 + (1 / 2 : ℚ) / 2 ≤ 1)
    ∧ ((((mosaicDest 4 2 2 0).x1 : ℚ)
          ≤ (mosaicPlacedBox 4 2 2 0 ⟨0, 1 / 2, 1 / 2, 1 / 2, 1 / 2⟩).x1
        ∧ (mosaicPlacedBox 4 2 2 0 ⟨0, 1 / 2, 1 / 2, 1 / 2, 1 / 2⟩).x1
          ≤ ((mosaicDest 4 2 2 0).x2 : ℚ))
      ∧ (((mosaicDest 4 2 2 0).x1 : ℚ)
          ≤ (mosaicPlacedBox 4 2 2 0 ⟨0, 1 / 2, 1 / 2, 1 / 2, 1 / 2⟩).x2
        ∧ (mosaicPlacedBox 4 2 2 0 ⟨0, 1 / 2, 1 / 2, 1 / 2, 1 / 2⟩).x2
          ≤ ((mosaicDest 4 2 2 0).x2 : ℚ))
      ∧ (((mosaicDest 4 2 2 0).y1 : ℚ)
          ≤ (mosaicPlacedBox 4 2 2 0 ⟨0, 1 / 2, 1 / 2, 1 / 2, 1 / 2⟩).y1
        ∧ (mosaicPlacedBox 4 2 2 0 ⟨0, 1 / 2, 1 / 2, 1 / 2, 1 / 2⟩).y1
          ≤ ((mosaicDest 4 2 2 0).y2 : ℚ))
      ∧ (((mosaicDest 4 2 2 0).y1 : ℚ)
          ≤ (mosaicPlacedBox 4 2 2 0 ⟨0, 1 / 2, 1 / 2, 1 / 2, 1 / 2⟩).y2
        ∧ (mosaicPlacedBox 4 2 2 0 ⟨0, 1 / 2, 1 / 2, 1 / 2, 1 / 2⟩).y2
          ≤ ((mosaicDest 4 2 2 0).y2 : ℚ))) :=
  ⟨⟨by norm_num, by norm_num⟩,
    mosaic_inbounds_box_in_quadrant 4 2 2 0 ⟨0, 1 / 2, 1 / 2, 1 / 2, 1 / 2⟩
      (by decide) (by decide) (by decide) (by norm_num) (by norm_num)
      (by norm_num) (by norm_num) (by norm_num) (by norm_num)⟩
